import Mathlib

/-!
Verification development for the Impact-Mapper static-analysis engine.

The JavaScript sources are shallowly embedded: the parser, the filesystem
and Node's path/string primitives are external collaborators and are
modelled by executable Lean functions; every function of the repository
itself (resolver.js and the analyzer module) is translated clause by
clause from the source.
-/

namespace ImpactMapper

/- ## Models of external string primitives (JavaScript String / Node path) -/

/-- Models JavaScript String.prototype.trim: strips leading and trailing
whitespace characters. -/
def trimString (s : String) : String :=
  ⟨((s.data.dropWhile (fun c => c.isWhitespace)).reverse.dropWhile (fun c => c.isWhitespace)).reverse⟩

/-- Splits a character list at a separator character, keeping empty pieces,
accumulating the current piece in reverse. -/
def splitCharAux (sep : Char) : List Char → List Char → List String
  | [], acc => [⟨acc.reverse⟩]
  | c :: cs, acc => if c = sep then ⟨acc.reverse⟩ :: splitCharAux sep cs [] else splitCharAux sep cs (c :: acc)

/-- Splits a path into its components at the '/' separator. -/
def splitPath (p : String) : List String := splitCharAux '/' p.data []

/-- Models JavaScript String.prototype.startsWith. -/
def startsWithStr (s pre : String) : Bool := pre.data.isPrefixOf s.data

/-- Models JavaScript String.prototype.endsWith. -/
def endsWithStr (s suf : String) : Bool := suf.data.isSuffixOf s.data

/-- Normalizes a component list the way Node's path.resolve does for an
absolute base: empty and "." components vanish, ".." pops the last kept
component. -/
def normalizeComps (cs : List String) : List String :=
  cs.foldl (fun acc c => if c = "" || c = "." then acc else if c = ".." then acc.dropLast else acc ++ [c]) []

/-- Joins absolute path components back into a '/'-separated string with a
leading separator. -/
def joinAbs (cs : List String) : String := cs.foldl (fun acc c => acc ++ "/" ++ c) ""

/-- Models Node path.resolve(dir, specifier) for an absolute dir: an
absolute specifier wins, otherwise the specifier is resolved against dir;
the result is normalized. -/
def resolvePath (dir specifier : String) : String :=
  joinAbs (normalizeComps (splitPath (if startsWithStr specifier "/" then specifier else dir ++ "/" ++ specifier)))

/-- Models Node path.dirname on an absolute path. -/
def dirname (p : String) : String := joinAbs ((normalizeComps (splitPath p)).dropLast)

/-- Models Node path.join(a, b) for a simple relative second component. -/
def pathJoin (a b : String) : String := a ++ "/" ++ b

/-- Models Node path.relative(projectRoot, filePath) for a file lying under
the project root: strips the root prefix together with its separator.
Argument order follows getModuleName(filePath, projectRoot) in resolver.js. -/
def getModuleName (filePath projectRoot : String) : String :=
  ⟨filePath.data.drop (projectRoot.length + 1)⟩

/- ## Model of the parsed syntax tree (the parser collaborator)

The analyzer inspects only a closed set of syntactic shapes: the kind of a
visited node's parent together with which child slot the visited identifier
occupies, plus the declaration, export, import and require nodes collected
by the three traversals. Each is modelled as a tagged variant carrying
exactly the sub-fields the source reads. -/

/-- The syntactic parent of an identifier occurrence, as inspected by
findReferences: the parent node's Babel type tag together with whether the
identifier occupies the child slot the source compares against
(parent.id, parent.callee or parent.object). -/
inductive ParentCtx
  | functionDeclaration (isIdSlot : Bool)
  | classDeclaration (isIdSlot : Bool)
  | variableDeclarator (isIdSlot : Bool)
  | callExpression (isCalleeSlot : Bool)
  | newExpression (isCalleeSlot : Bool)
  | memberExpression (isObjectSlot : Bool)
  | importSpecifier
  | importDefaultSpecifier
  | objectPattern
  | property
  | otherParent
deriving DecidableEq

/-- One identifier node met by the findReferences traversal: its textual
name, 1-based line, 0-based column and its syntactic parent. -/
structure Occ where
  name : String
  line : Nat
  column : Nat
  parent : ParentCtx
deriving DecidableEq

/-- The initializer shape of a variable declarator, as inspected by
discoverEntities. -/
inductive InitKind
  | arrowFunctionExpression
  | functionExpression
  | classExpression
  | otherInit
  | noInit
deriving DecidableEq

/-- One declarator of a variable declaration: the identifier name when the
target is a simple identifier, the initializer shape, and the declarator's
start line. -/
structure DeclaratorNode where
  idName : Option String
  init : InitKind
  line : Nat
deriving DecidableEq

/-- The right-hand side of an assignment to module.exports, as inspected by
discoverEntities: an object literal (its property key names, none for a
computed or non-identifier key), a bare identifier, or anything else. -/
inductive AssignRight
  | objectExpression (propKeyNames : List (Option String))
  | identifierNode (name : String)
  | otherRight
deriving DecidableEq

/-- One node met by the discoverEntities traversal, carrying exactly the
sub-fields that traversal reads. For an export-named node the fields are
the computed local-or-exported specifier names, the attached declaration's
identifier (when any) and the attached declaration's declarator identifiers. -/
inductive AstEvent
  | functionDeclarationNode (idName : Option String) (line : Nat)
  | classDeclarationNode (idName : Option String) (line : Nat)
  | variableDeclarationNode (declarations : List DeclaratorNode)
  | exportNamedNode (specifierLocalNames : List String) (declarationIdName : Option String) (declarationDeclaratorIdNames : List String)
  | exportDefaultNode (declarationIdName : Option String)
  | assignmentNode (leftIsModuleExports : Bool) (right : AssignRight)
deriving DecidableEq

/-- One import-like node met by the extractImports traversal: an
ImportDeclaration or a require call, with its specifier string and the
names the source computes for it. -/
structure RawImport where
  source : String
  importedNames : List String
deriving DecidableEq

/-- The parse result for one file: the nodes each of the three traversals
of the source visits, in traversal order. -/
structure Ast where
  events : List AstEvent
  rawImports : List RawImport
  occs : List Occ
deriving DecidableEq

/-- One file on disk: its absolute path, its parse result (none models a
parse failure thrown by the parser), and its content split into lines. -/
structure FileModel where
  path : String
  ast : Option Ast
  lines : List String
deriving DecidableEq

/-- The filesystem: the existing regular files (with their parsed content
model) in discovery order, and the existing directories. -/
structure FS where
  files : List FileModel
  dirs : List String
deriving DecidableEq

/-- Models fs.existsSync combined with statSync().isFile(): the path is an
existing regular file. -/
def isFileB (fsys : FS) (p : String) : Bool := fsys.files.any (fun f => f.path == p)

/-- Models fs.existsSync combined with statSync().isDirectory(): the path is
an existing directory. -/
def isDirB (fsys : FS) (p : String) : Bool := fsys.dirs.any (fun d => d == p)

/-- Models fs.existsSync: the path exists as a file or a directory. -/
def existsB (fsys : FS) (p : String) : Bool := isFileB fsys p || isDirB fsys p

/-- Reads the file stored at a path, when present. -/
def getFile (fsys : FS) (p : String) : Option FileModel := fsys.files.find? (fun f => f.path == p)

/- ## resolver.js -/

/-- The extension priority list of resolveImport. -/
def extensions : List String := [".js", ".jsx", ".ts", ".tsx", ".mjs", ".cjs"]

/-- Translation of resolveImport(specifier, fromFile, projectRoot) from
resolver.js: non-relative specifiers are unresolved; otherwise the
specifier is resolved against the importing file's directory and the
direct path (as a regular file), the path with each extension appended,
and, for a directory, each index file are tried in order. -/
def resolveImport (fsys : FS) (specifier fromFile projectRoot : String) : Option String :=
  if !startsWithStr specifier "." && !startsWithStr specifier "/" then none
  else
    let basePath := resolvePath (dirname fromFile) specifier
    if existsB fsys basePath && isFileB fsys basePath then some basePath
    else
      match extensions.find? (fun ext => existsB fsys (basePath ++ ext)) with
      | some ext => some (basePath ++ ext)
      | none =>
        if existsB fsys basePath && isDirB fsys basePath then
          match extensions.find? (fun ext => existsB fsys (pathJoin basePath ("index" ++ ext))) with
          | some ext => some (pathJoin basePath ("index" ++ ext))
          | none => none
        else none

/- ## Entity discovery -/

/-- Entity kinds; the source uses the strings 'function', 'class' and
'variable'. -/
inductive EntityKind
  | functionKind
  | classKind
  | variableKind
deriving DecidableEq

/-- One discovered entity record. -/
structure Entity where
  name : String
  type : EntityKind
  line : Nat
  exported : Bool
deriving DecidableEq

/-- The entity a variable declarator contributes in discoverEntities: only
declarators whose target is a simple identifier count, and the kind is
inferred from the initializer shape. -/
def entityFromDeclarator (d : DeclaratorNode) : Option Entity :=
  d.idName.map (fun n =>
    { name := n
      type := match d.init with
        | .arrowFunctionExpression => EntityKind.functionKind
        | .functionExpression => EntityKind.functionKind
        | .classExpression => EntityKind.classKind
        | .otherInit => EntityKind.variableKind
        | .noInit => EntityKind.variableKind
      line := d.line
      exported := false })

/-- The entities one visited node contributes in discoverEntities. -/
def entitiesOfEvent : AstEvent → List Entity
  | .functionDeclarationNode (some n) l => [{ name := n, type := .functionKind, line := l, exported := false }]
  | .functionDeclarationNode none _ => []
  | .classDeclarationNode (some n) l => [{ name := n, type := .classKind, line := l, exported := false }]
  | .classDeclarationNode none _ => []
  | .variableDeclarationNode ds => ds.filterMap entityFromDeclarator
  | _ => []

/-- The exported names one visited node contributes in discoverEntities. -/
def exportNamesOfEvent : AstEvent → List String
  | .exportNamedNode locals declId declIds => locals ++ declId.toList ++ declIds
  | .exportDefaultNode (some n) => [n]
  | .assignmentNode true (.objectExpression keys) => keys.filterMap id
  | .assignmentNode true (.identifierNode n) => [n]
  | _ => []

/-- Translation of discoverEntities(filePath): parse the file (none models
the parse failure propagating to the caller), collect entities and the
export-name set over the whole traversal, then mark every entity whose name
is exported. -/
def discoverEntities (f : FileModel) : Option (List Entity) :=
  f.ast.map (fun a =>
    let entities := a.events.flatMap entitiesOfEvent
    let exportedNames := a.events.flatMap exportNamesOfEvent
    entities.map (fun e => if exportedNames.contains e.name then { e with exported := true } else e))

/- ## Import extraction -/

/-- One extracted import: its specifier, its resolution and the imported
names. -/
structure ImportInfo where
  source : String
  resolvedPath : Option String
  importedNames : List String
deriving DecidableEq

/-- Translation of extractImports(filePath, projectRoot): parse the file
(none models the parse failure propagating to the caller) and resolve each
collected import-like node. -/
def extractImports (fsys : FS) (projectRoot : String) (f : FileModel) : Option (List ImportInfo) :=
  f.ast.map (fun a => a.rawImports.map (fun ri =>
    { source := ri.source
      resolvedPath := resolveImport fsys ri.source f.path projectRoot
      importedNames := ri.importedNames }))

/- ## Reference finding -/

/-- Reference kinds; the source uses the strings 'definition', 'import',
'call', 'instantiation', 'member-access' and 'reference'. -/
inductive RefKind
  | definition
  | importRef
  | call
  | instantiation
  | memberAccess
  | reference
deriving DecidableEq

/-- One recorded reference. -/
structure Reference where
  file : String
  absolutePath : String
  line : Nat
  column : Nat
  type : RefKind
  code : String
deriving DecidableEq

/-- The refType cascade of findReferences for an occurrence inside the
defining file. -/
def classifyInDefiner (parent : ParentCtx) : RefKind :=
  if (match parent with
      | .functionDeclaration _ => true
      | .classDeclaration _ => true
      | .variableDeclarator isId => isId
      | _ => false) then .definition
  else if (match parent with | .callExpression isCallee => isCallee | _ => false) then .call
  else if (match parent with | .memberExpression isObj => isObj | _ => false) then .memberAccess
  else .reference

/-- The refType cascade of findReferences for an occurrence inside a file
that imports from the defining file. -/
def classifyInImporter (parent : ParentCtx) : RefKind :=
  if (match parent with
      | .importSpecifier => true
      | .importDefaultSpecifier => true
      | .objectPattern => true
      | .property => true
      | _ => false) then .importRef
  else if (match parent with | .callExpression isCallee => isCallee | _ => false) then .call
  else if (match parent with | .newExpression isCallee => isCallee | _ => false) then .instantiation
  else if (match parent with | .memberExpression isObj => isObj | _ => false) then .memberAccess
  else .reference

/-- The loop body of findReferences for one file: skip the file on parse
failure, compute whether it imports from the defining file, and record a
classified reference for every occurrence of the entity name, discarding
occurrences in files that neither define nor resolve an import to the
definer. -/
def fileReferences (fsys : FS) (entityName definedIn projectRoot : String) (f : FileModel) : List Reference :=
  match f.ast with
  | none => []
  | some a =>
    let imps := a.rawImports.map (fun ri =>
      ({ source := ri.source
         resolvedPath := resolveImport fsys ri.source f.path projectRoot
         importedNames := ri.importedNames } : ImportInfo))
    let fromDefiner := imps.any (fun imp => imp.resolvedPath == some definedIn)
    (a.occs.filter (fun o => o.name == entityName)).filterMap (fun o =>
      (if f.path == definedIn then some (classifyInDefiner o.parent)
       else if fromDefiner then some (classifyInImporter o.parent)
       else none).map (fun k =>
        { file := getModuleName f.path projectRoot
          absolutePath := f.path
          line := o.line
          column := o.column
          type := k
          code := trimString ((f.lines[o.line - 1]?).getD "") }))

/-- Translation of findReferences(entityName, definedIn, allFiles,
projectRoot): the per-file contributions in file order. Reading a missing
path is fatal in the source and never happens on the file lists the
program builds; the model lets such a path contribute nothing. -/
def findReferences (fsys : FS) (entityName definedIn : String) (allFiles : List String) (projectRoot : String) : List Reference :=
  allFiles.flatMap (fun p =>
    match getFile fsys p with
    | none => []
    | some f => fileReferences fsys entityName definedIn projectRoot f)

/- ## File discovery and dependency graph -/

/-- The extensions matched by the glob pattern of getAllJsFiles. -/
def jsExtensions : List String := [".js", ".jsx", ".mjs", ".cjs"]

/-- The directory names excluded by the glob ignore list of getAllJsFiles. -/
def ignoredDirs : List String := ["node_modules", ".git", "dist", "build"]

/-- Models the glob collaborator invoked by getAllJsFiles(projectRoot):
every existing regular file under the project root whose name carries one
of the JavaScript extensions and whose path has no ignored directory
component, in filesystem discovery order, as absolute paths. -/
def getAllJsFiles (fsys : FS) (projectRoot : String) : List String :=
  (fsys.files.filter (fun f =>
    startsWithStr f.path (projectRoot ++ "/") &&
    jsExtensions.any (fun e => endsWithStr f.path e) &&
    !(splitPath f.path).any (fun c => ignoredDirs.contains c))).map (fun f => f.path)

/-- One dependency-graph node. -/
structure GraphNode where
  id : String
  file : String
deriving DecidableEq

/-- One dependency-graph edge; the source field names are from, to
and imports. -/
structure GraphEdge where
  fromId : String
  toId : String
  imports : List String
deriving DecidableEq

/-- The dependency graph. -/
structure DepGraph where
  nodes : List GraphNode
  edges : List GraphEdge
deriving DecidableEq

/-- The loop of buildDependencyGraph over the discovered files: push one
node per file, then one edge per import whose resolution is known. A parse
failure inside the unguarded extractImports call aborts the whole build
(modelled by none). -/
def buildGraphGo (fsys : FS) (projectRoot : String) (g : DepGraph) : List String → Option DepGraph
  | [] => some g
  | fp :: rest =>
    let moduleName := getModuleName fp projectRoot
    let g1 : DepGraph := { g with nodes := g.nodes ++ [{ id := moduleName, file := fp }] }
    match (getFile fsys fp).bind (extractImports fsys projectRoot) with
    | none => none
    | some imps =>
      buildGraphGo fsys projectRoot
        { g1 with edges := g1.edges ++ imps.filterMap (fun imp =>
            imp.resolvedPath.map (fun p =>
              { fromId := moduleName, toId := getModuleName p projectRoot, imports := imp.importedNames })) }
        rest

/-- Translation of buildDependencyGraph(projectRoot). -/
def buildDependencyGraph (fsys : FS) (projectRoot : String) : Option DepGraph :=
  buildGraphGo fsys projectRoot { nodes := [], edges := [] } (getAllJsFiles fsys projectRoot)

/- ## The ImpactAnalyzer class -/

/-- The mutable state of one ImpactAnalyzer instance. -/
structure ImpactAnalyzer where
  projectRoot : String
  files : List String
  entityMap : List (String × List Entity)
deriving DecidableEq

/-- Models the ImpactAnalyzer constructor; path.resolve on an absolute
root is modelled by normalization. -/
def mkImpactAnalyzer (projectRoot : String) : ImpactAnalyzer :=
  { projectRoot := joinAbs (normalizeComps (splitPath projectRoot)), files := [], entityMap := [] }

/-- Models JavaScript Map.prototype.set on an insertion-ordered map:
replaces the value in place when the key is present, appends otherwise. -/
def mapSet {α : Type} (m : List (String × α)) (k : String) (v : α) : List (String × α) :=
  if m.any (fun p => p.1 == k) then m.map (fun p => if p.1 == k then (k, v) else p) else m ++ [(k, v)]

/-- Models JavaScript Map.prototype.get. -/
def mapGet {α : Type} (m : List (String × α)) (k : String) : Option α :=
  (m.find? (fun p => p.1 == k)).map (fun p => p.2)

/-- The value returned by scan(). -/
structure ScanResult where
  fileCount : Nat
  entityMap : List (String × List Entity)
deriving DecidableEq

/-- Translation of ImpactAnalyzer.scan(): store the discovered file list,
then for each file record its discovered entities under its module name,
or an empty list when discovery throws; return the new analyzer state and
the scan result. -/
def scan (fsys : FS) (a : ImpactAnalyzer) : ImpactAnalyzer × ScanResult :=
  let files := getAllJsFiles fsys a.projectRoot
  let em := files.foldl (fun m fp =>
    let moduleName := getModuleName fp a.projectRoot
    match (getFile fsys fp).bind discoverEntities with
    | some es => mapSet m moduleName es
    | none => mapSet m moduleName []) a.entityMap
  ({ a with files := files, entityMap := em }, { fileCount := files.length, entityMap := em })

/-- An entity as returned by findEntity: the record spread together with
its module and absolute path. -/
structure FoundEntity where
  name : String
  type : EntityKind
  line : Nat
  exported : Bool
  module : String
  absolutePath : String
deriving DecidableEq

/-- The entity-map iteration of findEntity. -/
def findEntityIn (projectRoot entityName : String) (fileName : Option String) : List (String × List Entity) → Option FoundEntity
  | [] => none
  | (moduleName, entities) :: rest =>
    if (match fileName with
        | some fn => !endsWithStr moduleName fn
        | none => false) then findEntityIn projectRoot entityName fileName rest
    else
      match entities.find? (fun e => e.name == entityName) with
      | some e => some
          { name := e.name
            type := e.type
            line := e.line
            exported := e.exported
            module := moduleName
            absolutePath := pathJoin projectRoot moduleName }
      | none => findEntityIn projectRoot entityName fileName rest

/-- Translation of ImpactAnalyzer.findEntity(entityName, fileName): iterate
the entity map in insertion order, skipping modules whose name does not end
with the optional file hint, and return the first matching entity. -/
def findEntity (a : ImpactAnalyzer) (entityName : String) (fileName : Option String) : Option FoundEntity :=
  findEntityIn a.projectRoot entityName fileName a.entityMap

/-- Severity tiers. -/
inductive Severity
  | NONE
  | LOW
  | MEDIUM
  | HIGH
deriving DecidableEq

/-- The severity cascade of getImpact, as a function of the affected-module
count. -/
def severityOf (n : Nat) : Severity :=
  if n = 0 then .NONE else if n ≤ 2 then .LOW else if n ≤ 5 then .MEDIUM else .HIGH

/-- Models the spread of a JavaScript Set built from a list: elements are
inserted left to right and an element already present is skipped, so the
result is the distinct elements in first-occurrence order. -/
def setDedup (l : List String) : List String :=
  l.foldl (fun acc x => if acc.contains x then acc else acc ++ [x]) []

/-- The value returned by a successful getImpact call. -/
structure ImpactReport where
  entity : FoundEntity
  references : List Reference
  affectedModules : List String
  severity : Severity
deriving DecidableEq

/-- Translation of ImpactAnalyzer.getImpact(entityName, fileName): resolve
the entity (none on not-found), trace the references over the stored file
list, keep the distinct modules of the references that are neither
definitions nor in the defining module, and rate the severity from their
count. -/
def getImpact (fsys : FS) (a : ImpactAnalyzer) (entityName : String) (fileName : Option String) : Option ImpactReport :=
  match findEntity a entityName fileName with
  | none => none
  | some entity =>
    let references := findReferences fsys entityName entity.absolutePath a.files a.projectRoot
    let affectedModules := setDedup
      ((references.filter (fun r => decide (r.type ≠ RefKind.definition) && decide (r.file ≠ entity.module))).map (fun r => r.file))
    some
      { entity := entity
        references := references
        affectedModules := affectedModules
        severity := severityOf affectedModules.length }

/-- Translation of ImpactAnalyzer.getDependencyGraph(). -/
def getDependencyGraph (fsys : FS) (a : ImpactAnalyzer) : Option DepGraph :=
  buildDependencyGraph fsys a.projectRoot


/- ## Derived forms and specification-side definitions used by the theorems -/

/-- The candidate list the specification describes for resolveImport: the
exact path when it is an existing regular file, the path with each
extension appended, then, when the exact path is an existing directory,
each index file, in extension order. -/
def resolveCandidates (fsys : FS) (basePath : String) : List String :=
  (if isFileB fsys basePath then [basePath] else []) ++
  extensions.map (fun ext => basePath ++ ext) ++
  (if isDirB fsys basePath then extensions.map (fun ext => pathJoin basePath ("index" ++ ext)) else [])

/-- The specification's condition for the import classification of an
occurrence in an importing file: the parent is an import specifier, or the
occurrence lies inside a destructuring binding pattern used to capture a
module import. The second disjunct is not computable from the parent shape
the source inspects, so it is passed in as ghost data. -/
def specImportCondition (parent : ParentCtx) (capturesModuleImport : Bool) : Prop :=
  parent = ParentCtx.importSpecifier ∨ parent = ParentCtx.importDefaultSpecifier ∨ capturesModuleImport = true

/-- The specification's condition for the definition classification of an
occurrence in the defining file: the identifier fills the declaring slot of
a function declaration, class declaration, or variable declarator. -/
def specDefinitionCondition (parent : ParentCtx) : Prop :=
  parent = ParentCtx.functionDeclaration true ∨ parent = ParentCtx.classDeclaration true ∨
    parent = ParentCtx.variableDeclarator true

/-- The module name and recorded entity list each discovered file
contributes to the entity map during scan. -/
def entitiesOrEmpty (fsys : FS) (fp : String) : List Entity :=
  ((getFile fsys fp).bind discoverEntities).getD []

/-- The key-value pairs scan writes into the entity map, in discovery
order. -/
def discoveredPairs (fsys : FS) (projectRoot : String) : List (String × List Entity) :=
  (getAllJsFiles fsys projectRoot).map (fun fp => (getModuleName fp projectRoot, entitiesOrEmpty fsys fp))

/-- Writing a sequence of key-value pairs into an insertion-ordered map. -/
def setFold {α : Type} (ps : List (String × α)) (m : List (String × α)) : List (String × α) :=
  ps.foldl (fun acc q => mapSet acc q.1 q.2) m

/-- The key is bound in the map. -/
def keyPresent {α : Type} (m : List (String × α)) (k : String) : Prop :=
  ∃ q ∈ m, q.1 = k

/-- Every entry of the map carrying the key is exactly the given pair. -/
def keyAll {α : Type} (m : List (String × α)) (k : String) (v : α) : Prop :=
  ∀ q ∈ m, q.1 = k → q = (k, v)

/- ## Concrete scenario: a defining file and one importing file under /p -/

/-- File a.js of the scenario: exports function foo. -/
def fA : FileModel :=
  { path := "/p/a.js"
    ast := some
      { events := [AstEvent.functionDeclarationNode (some "foo") 1,
                   AstEvent.exportNamedNode [] (some "foo") []]
        rawImports := []
        occs := [{ name := "foo", line := 1, column := 16, parent := ParentCtx.functionDeclaration true }] }
    lines := ["export function foo() {}"] }

/-- File b.js of the scenario: imports foo from a.js and calls it once. -/
def fB : FileModel :=
  { path := "/p/b.js"
    ast := some
      { events := []
        rawImports := [{ source := "./a", importedNames := ["foo"] }]
        occs := [{ name := "foo", line := 1, column := 9, parent := ParentCtx.importSpecifier },
                 { name := "foo", line := 2, column := 0, parent := ParentCtx.callExpression true }] }
    lines := ["import { foo } from './a';", "foo();"] }

/-- The scenario filesystem. -/
def fsW : FS := { files := [fA, fB], dirs := ["/p"] }

/-- The scenario analyzer after one scan. -/
def aW : ImpactAnalyzer := (scan fsW (mkImpactAnalyzer "/p")).1

/-- The impact report returned for foo in the scenario. -/
def resW : ImpactReport :=
  { entity := { name := "foo", type := .functionKind, line := 1, exported := true, module := "a.js", absolutePath := "/p/a.js" }
    references :=
      [{ file := "a.js", absolutePath := "/p/a.js", line := 1, column := 16, type := .definition, code := "export function foo() {}" },
       { file := "b.js", absolutePath := "/p/b.js", line := 1, column := 9, type := .importRef, code := "import { foo } from './a';" },
       { file := "b.js", absolutePath := "/p/b.js", line := 2, column := 0, type := .call, code := "foo();" }]
    affectedModules := ["b.js"]
    severity := .LOW }

/-- A file that neither defines foo nor imports from a.js but declares an
unrelated local identifier named foo. -/
def fC5 : FileModel :=
  { path := "/p/c.js"
    ast := some
      { events := [AstEvent.variableDeclarationNode [{ idName := some "foo", init := InitKind.otherInit, line := 1 }]]
        rawImports := []
        occs := [{ name := "foo", line := 1, column := 6, parent := ParentCtx.variableDeclarator true }] }
    lines := ["const foo = 1;"] }

/-- A filesystem where a.js imports ./b and only b.ts exists: the import
resolves to a file that the glob never lists. -/
def fsC3 : FS :=
  { files := [{ path := "/q/a.js"
                ast := some { events := [], rawImports := [{ source := "./b", importedNames := ["x"] }], occs := [] }
                lines := ["import { x } from './b';"] },
              { path := "/q/b.ts", ast := none, lines := ["let x: number = 1;"] }]
    dirs := ["/q"] }

/-- The dependency graph built over fsC3: the edge points at module b.ts,
which is no node. -/
def gC3 : DepGraph :=
  { nodes := [{ id := "a.js", file := "/q/a.js" }]
    edges := [{ fromId := "a.js", toId := "b.ts", imports := ["x"] }] }

/-- An importing file of the scenario whose foo occurrence sits in an
object-literal property, unrelated to any destructuring of an import. -/
def fC6 : FileModel :=
  { path := "/p/d.js"
    ast := some
      { events := []
        rawImports := [{ source := "./a", importedNames := ["foo"] }]
        occs := [{ name := "foo", line := 2, column := 14, parent := ParentCtx.property }] }
    lines := ["import { foo } from './a';", "const obj = { foo: 1 };"] }

/-- A defining file in which foo also occurs as a parameter of another
function declaration: the parent is a function declaration but the
identifier does not name that declaration. -/
def fC7 : FileModel :=
  { path := "/p/e.js"
    ast := some
      { events := [AstEvent.variableDeclarationNode [{ idName := some "foo", init := InitKind.otherInit, line := 1 }]]
        rawImports := []
        occs := [{ name := "foo", line := 1, column := 6, parent := ParentCtx.variableDeclarator true },
                 { name := "foo", line := 2, column := 11, parent := ParentCtx.functionDeclaration false }] }
    lines := ["const foo = 1;", "function g(foo) { return foo; }"] }

/-- A filesystem in which bad.js fails to parse while a.js parses. -/
def fsC9 : FS :=
  { files := [fA, { path := "/p/bad.js", ast := none, lines := ["%%%"] }]
    dirs := ["/p"] }

/-- The parse-failing file of fsC9. -/
def fBad : FileModel := { path := "/p/bad.js", ast := none, lines := ["%%%"] }

/- ## Helper lemmas -/

theorem getModuleName_append (root m : String) : getModuleName (root ++ "/" ++ m) root = m := by
  have hdata : (root ++ "/" ++ m).data = (root.data ++ ['/']) ++ m.data := by
    rw [String.data_append, String.data_append]
  have hlen : (root.data ++ ['/']).length = root.length + 1 := by
    rw [List.length_append, String.length_data]
    rfl
  show (⟨(root ++ "/" ++ m).data.drop (root.length + 1)⟩ : String) = m
  rw [hdata, List.drop_left' hlen]

theorem setDedup_go_mem (l : List String) (acc : List String) (x : String) :
    x ∈ l.foldl (fun acc x => if acc.contains x then acc else acc ++ [x]) acc ↔ x ∈ acc ∨ x ∈ l := by
  induction l generalizing acc with
  | nil => simp
  | cons y t ih =>
    rw [List.foldl_cons, ih]
    have hstep : x ∈ (if acc.contains y then acc else acc ++ [y]) ↔ x ∈ acc ∨ x = y := by
      by_cases h : acc.contains y
      · rw [if_pos h]
        constructor
        · exact Or.inl
        · rintro (hx | rfl)
          · exact hx
          · exact List.mem_of_elem_eq_true h
      · rw [if_neg h]
        simp
    rw [hstep]
    simp only [List.mem_cons]
    tauto

theorem setDedup_mem (x : String) (l : List String) : x ∈ setDedup l ↔ x ∈ l := by
  unfold setDedup
  rw [setDedup_go_mem]
  simp

theorem setDedup_go_nodup (l : List String) (acc : List String) (hacc : acc.Nodup) :
    (l.foldl (fun acc x => if acc.contains x then acc else acc ++ [x]) acc).Nodup := by
  induction l generalizing acc with
  | nil => simpa
  | cons y t ih =>
    rw [List.foldl_cons]
    apply ih
    by_cases h : acc.contains y
    · rw [if_pos h]
      exact hacc
    · rw [if_neg h]
      have hy : y ∉ acc := fun hmem => h (List.elem_eq_true_of_mem hmem)
      simp [List.nodup_append, hacc, hy]

theorem setDedup_nodup (l : List String) : (setDedup l).Nodup :=
  setDedup_go_nodup l [] List.nodup_nil

theorem map_filter_and {α β : Type} (f : α → β) (p : α → Bool) (q : β → Bool) (l : List α) :
    (l.filter (fun x => p x && q (f x))).map f = ((l.filter p).map f).filter q := by
  induction l with
  | nil => rfl
  | cons x t ih =>
    cases hp : p x <;> cases hq : q (f x) <;>
      simp [List.filter_cons, hp, hq, ih]

theorem filter_and_map_comm (l : List Reference) (m : String) :
    (l.filter (fun r => decide (r.type ≠ RefKind.definition) && decide (r.file ≠ m))).map (fun r => r.file)
      = ((l.filter (fun r => decide (r.type ≠ RefKind.definition))).map (fun r => r.file)).filter
          (fun s => decide (s ≠ m)) :=
  map_filter_and (fun r => r.file) (fun r => decide (r.type ≠ RefKind.definition)) (fun s => decide (s ≠ m)) l

theorem getImpact_shape {fsys : FS} {a : ImpactAnalyzer} {entityName : String} {fileName : Option String}
    {res : ImpactReport} (hres : getImpact fsys a entityName fileName = some res) :
    res.severity = severityOf res.affectedModules.length ∧
    res.references = findReferences fsys entityName res.entity.absolutePath a.files a.projectRoot ∧
    res.affectedModules = setDedup
      ((res.references.filter (fun r =>
        decide (r.type ≠ RefKind.definition) && decide (r.file ≠ res.entity.module))).map (fun r => r.file)) := by
  unfold getImpact at hres
  cases hf : findEntity a entityName fileName with
  | none => rw [hf] at hres; cases hres
  | some entity =>
    rw [hf] at hres
    simp only [Option.some.injEq] at hres
    subst hres
    exact ⟨rfl, rfl, rfl⟩

theorem severityOf_spec (n : Nat) :
    (severityOf n = Severity.NONE ↔ n = 0) ∧
    (severityOf n = Severity.LOW ↔ 1 ≤ n ∧ n ≤ 2) ∧
    (severityOf n = Severity.MEDIUM ↔ 3 ≤ n ∧ n ≤ 5) ∧
    (severityOf n = Severity.HIGH ↔ 6 ≤ n) := by
  unfold severityOf
  split_ifs with h1 h2 h3 <;> refine ⟨?_, ?_, ?_, ?_⟩ <;> simp <;> omega

/- ## C1 -/

/-- C1: for every getImpact call that resolves its entity, the returned
severity is a pure function of the number of distinct affected modules:
count 0 yields NONE, counts 1 and 2 yield LOW, counts 3 through 5 yield
MEDIUM, and counts of 6 or more yield HIGH. -/
theorem c1_severity_pure_of_count (fsys : FS) (a : ImpactAnalyzer) (entityName : String)
    (fileName : Option String) (res : ImpactReport)
    (hres : getImpact fsys a entityName fileName = some res) :
    (res.severity = Severity.NONE ↔ res.affectedModules.length = 0) ∧
    (res.severity = Severity.LOW ↔ 1 ≤ res.affectedModules.length ∧ res.affectedModules.length ≤ 2) ∧
    (res.severity = Severity.MEDIUM ↔ 3 ≤ res.affectedModules.length ∧ res.affectedModules.length ≤ 5) ∧
    (res.severity = Severity.HIGH ↔ 6 ≤ res.affectedModules.length) := by
  obtain ⟨hs, -, -⟩ := getImpact_shape hres
  rw [hs]
  exact severityOf_spec _

/-- Witness for C1 at the two-file scenario, where one module is affected
and the severity is LOW. -/
theorem c1_severity_pure_of_count_witness :
    (resW.severity = Severity.NONE ↔ resW.affectedModules.length = 0) ∧
    (resW.severity = Severity.LOW ↔ 1 ≤ resW.affectedModules.length ∧ resW.affectedModules.length ≤ 2) ∧
    (resW.severity = Severity.MEDIUM ↔ 3 ≤ resW.affectedModules.length ∧ resW.affectedModules.length ≤ 5) ∧
    (resW.severity = Severity.HIGH ↔ 6 ≤ resW.affectedModules.length) :=
  c1_severity_pure_of_count fsW aW "foo" none resW (by decide)

/- ## C2 -/

/-- C2: for every successful getImpact result, affectedModules is exactly
the set of distinct module identifiers, in first-occurrence order of the
reference sequence, that contain at least one non-definition reference,
and it never contains the entity's defining module. -/
theorem c2_affected_modules_characterization (fsys : FS) (a : ImpactAnalyzer) (entityName : String)
    (fileName : Option String) (res : ImpactReport)
    (hres : getImpact fsys a entityName fileName = some res) :
    res.affectedModules.Nodup ∧
    res.entity.module ∉ res.affectedModules ∧
    (∀ m, m ∈ res.affectedModules ↔
      (m ≠ res.entity.module ∧ ∃ r ∈ res.references, r.file = m ∧ r.type ≠ RefKind.definition)) ∧
    res.affectedModules = setDedup
      (((res.references.filter (fun r => decide (r.type ≠ RefKind.definition))).map (fun r => r.file)).filter
        (fun s => decide (s ≠ res.entity.module))) := by
  obtain ⟨-, -, ham⟩ := getImpact_shape hres
  refine ⟨?_, ?_, ?_, ?_⟩
  · rw [ham]; exact setDedup_nodup _
  · intro hmem
    rw [ham, setDedup_mem] at hmem
    simp only [List.mem_map, List.mem_filter, Bool.and_eq_true, decide_eq_true_eq] at hmem
    obtain ⟨r, ⟨-, -, hfile⟩, heq⟩ := hmem
    exact hfile heq
  · intro m
    rw [ham, setDedup_mem]
    simp only [List.mem_map, List.mem_filter, Bool.and_eq_true, decide_eq_true_eq]
    constructor
    · rintro ⟨r, ⟨hr, hdef, hfile⟩, rfl⟩
      exact ⟨hfile, r, hr, rfl, hdef⟩
    · rintro ⟨hne, r, hr, rfl, hdef⟩
      exact ⟨r, ⟨hr, hdef, hne⟩, rfl⟩
  · rw [ham, filter_and_map_comm]

/-- Witness for C2 at the two-file scenario. -/
theorem c2_affected_modules_characterization_witness :
    resW.affectedModules.Nodup ∧
    resW.entity.module ∉ resW.affectedModules ∧
    (∀ m, m ∈ resW.affectedModules ↔
      (m ≠ resW.entity.module ∧ ∃ r ∈ resW.references, r.file = m ∧ r.type ≠ RefKind.definition)) ∧
    resW.affectedModules = setDedup
      (((resW.references.filter (fun r => decide (r.type ≠ RefKind.definition))).map (fun r => r.file)).filter
        (fun s => decide (s ≠ resW.entity.module))) :=
  c2_affected_modules_characterization fsW aW "foo" none resW (by decide)

/- ## C10 -/

/-- C10: before any scan the entity map is empty, so findEntity and
getImpact return the explicit not-found result for every name and hint. -/
theorem c10_prescan_returns_null (projectRoot entityName : String) (fileName : Option String) (fsys : FS) :
    findEntity (mkImpactAnalyzer projectRoot) entityName fileName = none ∧
    getImpact fsys (mkImpactAnalyzer projectRoot) entityName fileName = none :=
  ⟨rfl, rfl⟩

/- ## C4 -/

theorem exists_and_isFile (fsys : FS) (p : String) :
    (existsB fsys p && isFileB fsys p) = isFileB fsys p := by
  unfold existsB
  cases h : isFileB fsys p <;> cases h2 : isDirB fsys p <;> simp [h, h2]

theorem exists_and_isDir (fsys : FS) (p : String) :
    (existsB fsys p && isDirB fsys p) = isDirB fsys p := by
  unfold existsB
  cases h : isFileB fsys p <;> cases h2 : isDirB fsys p <;> simp [h, h2]

theorem find?_exists_map (fsys : FS) (g : String → String) (l : List String) :
    (l.map g).find? (fun c => existsB fsys c) = (l.find? (fun e => existsB fsys (g e))).map g := by
  rw [List.find?_map]
  rfl

theorem resolveBody_eq (fsys : FS) (basePath : String) :
    (if existsB fsys basePath && isFileB fsys basePath then some basePath
     else
       match extensions.find? (fun ext => existsB fsys (basePath ++ ext)) with
       | some ext => some (basePath ++ ext)
       | none =>
         if existsB fsys basePath && isDirB fsys basePath then
           match extensions.find? (fun ext => existsB fsys (pathJoin basePath ("index" ++ ext))) with
           | some ext => some (pathJoin basePath ("index" ++ ext))
           | none => none
         else none)
      = (resolveCandidates fsys basePath).find? (fun c => existsB fsys c) := by
  unfold resolveCandidates
  rw [exists_and_isFile, exists_and_isDir]
  cases hf : isFileB fsys basePath with
  | true =>
    have hex : existsB fsys basePath = true := by
      unfold existsB
      rw [hf]
      rfl
    simp [hex]
  | false =>
    simp only [if_false, List.nil_append, Bool.false_eq_true]
    rw [List.find?_append, find?_exists_map]
    cases hfind : extensions.find? (fun e => existsB fsys (basePath ++ e)) with
    | some e => rfl
    | none =>
      simp only [Option.map_none, Option.none_or]
      cases hd : isDirB fsys basePath with
      | true =>
        simp only [if_true]
        rw [find?_exists_map]
        cases hidx : extensions.find? (fun e => existsB fsys (pathJoin basePath ("index" ++ e))) with
        | some e => rfl
        | none => rfl
      | false => simp

/-- C4: resolveImport returns unresolved for non-relative specifiers, and
otherwise returns the first existing candidate in the fixed priority
order: the exact path as a regular file, then each extension appended in
list order, then, for a directory, each index file in the same order. -/
theorem c4_resolve_priority (fsys : FS) (specifier fromFile projectRoot : String) :
    resolveImport fsys specifier fromFile projectRoot =
      (if startsWithStr specifier "." || startsWithStr specifier "/" then
        (resolveCandidates fsys (resolvePath (dirname fromFile) specifier)).find? (fun c => existsB fsys c)
       else none) := by
  unfold resolveImport
  cases hd : startsWithStr specifier "." <;> cases hs : startsWithStr specifier "/" <;>
    simp only [hd, hs, Bool.not_true, Bool.not_false, Bool.false_and, Bool.true_and,
      Bool.and_false, Bool.and_true, Bool.or_true, Bool.true_or, Bool.false_or, Bool.or_false,
      if_true, if_false, Bool.false_eq_true, Bool.true_eq_false] <;>
    first
      | rfl
      | exact resolveBody_eq fsys (resolvePath (dirname fromFile) specifier)

/- ## C5 -/

/-- C5: a traced file that is not the defining file and has no import
resolving to the defining file contributes zero references, even when it
contains identifier occurrences of the traced name. -/
theorem c5_unrelated_file_suppression (fsys : FS) (entityName definedIn projectRoot : String) (f : FileModel)
    (h1 : f.path ≠ definedIn)
    (h2 : ∀ imps, extractImports fsys projectRoot f = some imps → ∀ imp ∈ imps, imp.resolvedPath ≠ some definedIn) :
    fileReferences fsys entityName definedIn projectRoot f = [] := by
  unfold fileReferences
  cases hast : f.ast with
  | none => rfl
  | some a =>
    have himps := h2 _ (by unfold extractImports; rw [hast]; rfl)
    have hpath : (f.path == definedIn) = false := beq_eq_false_iff_ne.mpr h1
    have hfrom : (a.rawImports.map (fun ri =>
        ({ source := ri.source
           resolvedPath := resolveImport fsys ri.source f.path projectRoot
           importedNames := ri.importedNames } : ImportInfo))).any
          (fun imp => imp.resolvedPath == some definedIn) = false := by
      rw [List.any_eq_false]
      intro imp himp
      simp [beq_eq_false_iff_ne.mpr (himps imp himp)]
    simp only [hpath, hfrom, Bool.false_eq_true, if_false, Option.map_none]
    simp [List.filterMap_eq_nil_iff]

/-- Witness for C5: a file declaring an unrelated local foo contributes no
references when foo of a.js is traced. -/
theorem c5_unrelated_file_suppression_witness :
    fC5.path ≠ "/p/a.js" ∧ fileReferences fsW "foo" "/p/a.js" "/p" fC5 = [] :=
  ⟨by decide, c5_unrelated_file_suppression fsW "foo" "/p/a.js" "/p" fC5 (by decide) (by
    intro imps h imp him
    rw [show extractImports fsW "/p" fC5 = some [] from rfl] at h
    injection h with h
    subst h
    cases him)⟩

/- ## C6 -/

/-- C6 counterexample: in a file that imports from the definer, an
occurrence whose parent is an object-literal property node is classified
as the import kind by the code, although the parent is no import
specifier and the occurrence lies in no destructuring binding capturing
a module import. -/
theorem c6_counterexample :
    (fileReferences fsW "foo" "/p/a.js" "/p" fC6).map (fun r => r.type) = [RefKind.importRef] ∧
    classifyInImporter ParentCtx.property = RefKind.importRef ∧
    ¬ specImportCondition ParentCtx.property false := by
  refine ⟨by decide, by decide, ?_⟩
  unfold specImportCondition
  decide

/-- C6 amended: in an importing file an occurrence is classified 'import'
exactly when its parent node is an import specifier, an import-default
specifier, an object pattern or an object property — whether or not the
destructuring captures a module import; 'call', 'instantiation' and
'member-access' correspond exactly to the callee slot of a call
expression, the callee slot of a new expression and the object slot of a
member expression. -/
theorem c6_amended_import_classification (p : ParentCtx) :
    (classifyInImporter p = RefKind.importRef ↔
      (p = ParentCtx.importSpecifier ∨ p = ParentCtx.importDefaultSpecifier ∨
       p = ParentCtx.objectPattern ∨ p = ParentCtx.property)) ∧
    (classifyInImporter p = RefKind.call ↔ p = ParentCtx.callExpression true) ∧
    (classifyInImporter p = RefKind.instantiation ↔ p = ParentCtx.newExpression true) ∧
    (classifyInImporter p = RefKind.memberAccess ↔ p = ParentCtx.memberExpression true) := by
  cases p <;> first
    | decide
    | (rename_i b; cases b <;> decide)

/- ## C7 -/

/-- C7 counterexample: in the defining file, an occurrence whose parent is
a function declaration without filling its declaring slot (here: a
parameter of another function) is still classified 'definition' by the
code, although the identifier does not name the declaration itself. -/
theorem c7_counterexample :
    (fileReferences fsW "foo" "/p/e.js" "/p" fC7).map (fun r => r.type) = [RefKind.definition, RefKind.definition] ∧
    classifyInDefiner (ParentCtx.functionDeclaration false) = RefKind.definition ∧
    ¬ specDefinitionCondition (ParentCtx.functionDeclaration false) := by
  refine ⟨by decide, by decide, ?_⟩
  unfold specDefinitionCondition
  decide

/-- C7 amended: in the defining file an occurrence is classified
'definition' exactly when its parent node is a function declaration or a
class declaration — in any child slot, declaring or not — or when it fills
the id slot of a variable declarator; 'call' and 'member-access'
correspond exactly to the callee slot of a call expression and the object
slot of a member expression, and every other position (including a
new-expression callee) is classified 'reference'. -/
theorem c7_amended_definition_classification (p : ParentCtx) :
    (classifyInDefiner p = RefKind.definition ↔
      (p = ParentCtx.functionDeclaration true ∨ p = ParentCtx.functionDeclaration false ∨
       p = ParentCtx.classDeclaration true ∨ p = ParentCtx.classDeclaration false ∨
       p = ParentCtx.variableDeclarator true)) ∧
    (classifyInDefiner p = RefKind.call ↔ p = ParentCtx.callExpression true) ∧
    (classifyInDefiner p = RefKind.memberAccess ↔ p = ParentCtx.memberExpression true) ∧
    classifyInDefiner p ≠ RefKind.importRef ∧
    classifyInDefiner p ≠ RefKind.instantiation := by
  cases p <;> first
    | decide
    | (rename_i b; cases b <;> decide)

/- ## C3 -/

theorem buildGraphGo_spec (fsys : FS) (projectRoot : String) :
    ∀ (fps : List String) (g0 g : DepGraph),
      buildGraphGo fsys projectRoot g0 fps = some g →
      g.nodes = g0.nodes ++ fps.map (fun fp => ({ id := getModuleName fp projectRoot, file := fp } : GraphNode)) ∧
      ∀ e ∈ g.edges, e ∈ g0.edges ∨
        ∃ fp ∈ fps, ∃ imps, (getFile fsys fp).bind (extractImports fsys projectRoot) = some imps ∧
          ∃ imp ∈ imps, ∃ p, imp.resolvedPath = some p ∧ e.toId = getModuleName p projectRoot := by
  intro fps
  induction fps with
  | nil =>
    intro g0 g hg
    unfold buildGraphGo at hg
    injection hg with hg
    subst hg
    exact ⟨by simp, fun e he => Or.inl he⟩
  | cons fp rest ih =>
    intro g0 g hg
    unfold buildGraphGo at hg
    cases himp : (getFile fsys fp).bind (extractImports fsys projectRoot) with
    | none => rw [himp] at hg; cases hg
    | some imps =>
      rw [himp] at hg
      obtain ⟨hnodes, hedges⟩ := ih _ _ hg
      constructor
      · rw [hnodes]
        simp [List.append_assoc]
      · intro e he
        rcases hedges e he with hin | ⟨fp', hfp', rest'⟩
        · rcases List.mem_append.mp hin with h0 | hnew
          · exact Or.inl h0
          · right
            refine ⟨fp, List.mem_cons_self _ _, imps, himp, ?_⟩
            simp only [List.mem_filterMap] at hnew
            obtain ⟨imp, himpmem, heq⟩ := hnew
            cases hres : imp.resolvedPath with
            | none => rw [hres] at heq; cases heq
            | some p =>
              rw [hres] at heq
              simp only [Option.map_some', Option.some.injEq] at heq
              subst heq
              exact ⟨imp, himpmem, p, hres, rfl⟩
        · exact Or.inr ⟨fp', List.mem_cons_of_mem _ hfp', rest'⟩

/-- C3 counterexample: over fsC3 the build succeeds and yields an edge
whose target module matches no node — the import of a.js resolves to
b.ts, which the file discovery never lists. -/
theorem c3_counterexample :
    buildDependencyGraph fsC3 "/q" = some gC3 ∧
    (gC3.edges.all (fun e => gC3.nodes.any (fun nd => nd.id == e.toId))) = false := by
  exact ⟨by decide, by decide⟩

/-- C3 amended: an edge is only created when the import's resolvedPath is
known, and its target identifier is the module name of that resolved path;
the target corresponds to a node of the graph whenever the resolved path
is itself among the discovered project files (which can fail, e.g. for a
resolution landing on a .ts file or inside an ignored directory). -/
theorem c3_amended_edge_target (fsys : FS) (projectRoot : String) (g : DepGraph)
    (hg : buildDependencyGraph fsys projectRoot = some g) :
    g.nodes = (getAllJsFiles fsys projectRoot).map (fun fp => ({ id := getModuleName fp projectRoot, file := fp } : GraphNode)) ∧
    ∀ e ∈ g.edges, ∃ fp ∈ getAllJsFiles fsys projectRoot, ∃ imps,
      (getFile fsys fp).bind (extractImports fsys projectRoot) = some imps ∧
      ∃ imp ∈ imps, ∃ p, imp.resolvedPath = some p ∧ e.toId = getModuleName p projectRoot ∧
        (p ∈ getAllJsFiles fsys projectRoot → g.nodes.any (fun nd => nd.id == e.toId) = true) := by
  obtain ⟨hnodes, hedges⟩ := buildGraphGo_spec fsys projectRoot (getAllJsFiles fsys projectRoot) _ g hg
  refine ⟨by simpa using hnodes, ?_⟩
  intro e he
  rcases hedges e he with h0 | ⟨fp, hfp, imps, himps, imp, himp, p, hres, htoId⟩
  · cases h0
  · refine ⟨fp, hfp, imps, himps, imp, himp, p, hres, htoId, ?_⟩
    intro hpmem
    rw [List.any_eq_true]
    refine ⟨{ id := getModuleName p projectRoot, file := p }, ?_, ?_⟩
    · rw [hnodes]
      simp only [List.nil_append, List.mem_map]
      exact ⟨p, hpmem, rfl⟩
    · rw [htoId]
      simp

/-- Witness for C3 amended at the fsC3 scenario. -/
theorem c3_amended_edge_target_witness :
    buildDependencyGraph fsC3 "/q" = some gC3 ∧
    gC3.nodes = (getAllJsFiles fsC3 "/q").map (fun fp => ({ id := getModuleName fp "/q", file := fp } : GraphNode)) :=
  ⟨by decide, (c3_amended_edge_target fsC3 "/q" gC3 (by decide)).1⟩

/- ## Insertion-ordered map lemmas for scan -/

theorem setFold_cons {α : Type} (q : String × α) (t : List (String × α)) (m : List (String × α)) :
    setFold (q :: t) m = setFold t (mapSet m q.1 q.2) := by
  unfold setFold
  rw [List.foldl_cons]

theorem mapSet_present {α : Type} (m : List (String × α)) (k : String) (v : α) :
    keyPresent (mapSet m k v) k := by
  unfold mapSet keyPresent
  by_cases h : m.any (fun p => p.1 == k)
  · rw [if_pos h]
    obtain ⟨q, hq, hbeq⟩ := List.any_eq_true.mp h
    refine ⟨(k, v), List.mem_map.mpr ⟨q, hq, ?_⟩, rfl⟩
    rw [if_pos hbeq]
  · rw [if_neg h]
    exact ⟨(k, v), List.mem_append.mpr (Or.inr (List.mem_singleton.mpr rfl)), rfl⟩

theorem mapSet_keyAll {α : Type} (m : List (String × α)) (k : String) (v : α) :
    keyAll (mapSet m k v) k v := by
  unfold mapSet keyAll
  by_cases h : m.any (fun p => p.1 == k)
  · rw [if_pos h]
    intro q hq hq1
    obtain ⟨q', hq', hmap⟩ := List.mem_map.mp hq
    by_cases hb : (q'.1 == k)
    · rw [if_pos hb] at hmap
      exact hmap.symm
    · rw [if_neg hb] at hmap
      subst hmap
      exact absurd (beq_iff_eq.mpr hq1) hb
  · rw [if_neg h]
    rw [Bool.not_eq_true, List.any_eq_false] at h
    intro q hq hq1
    rcases List.mem_append.mp hq with hin | hsing
    · exact absurd (beq_iff_eq.mpr hq1) (by simpa using h q hin)
    · rw [List.mem_singleton] at hsing
      exact hsing

theorem mapSet_preserve_present {α : Type} (m : List (String × α)) (k k' : String) (v' : α)
    (hne : k ≠ k') (h : keyPresent m k) : keyPresent (mapSet m k' v') k := by
  unfold mapSet keyPresent at *
  obtain ⟨q, hq, hq1⟩ := h
  by_cases hany : m.any (fun p => p.1 == k')
  · rw [if_pos hany]
    refine ⟨q, List.mem_map.mpr ⟨q, hq, ?_⟩, hq1⟩
    rw [if_neg (by simp only [hq1, beq_iff_eq]; exact hne)]
  · rw [if_neg hany]
    exact ⟨q, List.mem_append.mpr (Or.inl hq), hq1⟩

theorem mapSet_preserve_keyAll {α : Type} (m : List (String × α)) (k : String) (v : α) (k' : String) (v' : α)
    (hne : k ≠ k') (h : keyAll m k v) : keyAll (mapSet m k' v') k v := by
  unfold mapSet keyAll at *
  by_cases hany : m.any (fun p => p.1 == k')
  · rw [if_pos hany]
    intro q hq hq1
    obtain ⟨q', hq', hmap⟩ := List.mem_map.mp hq
    by_cases hb : (q'.1 == k')
    · rw [if_pos hb] at hmap
      subst hmap
      exact absurd hq1 (Ne.symm hne)
    · rw [if_neg hb] at hmap
      subst hmap
      exact h q' hq' hq1
  · rw [if_neg hany]
    intro q hq hq1
    rcases List.mem_append.mp hq with hin | hsing
    · exact h q hin hq1
    · rw [List.mem_singleton] at hsing
      subst hsing
      exact absurd hq1 (Ne.symm hne)

theorem setFold_preserve {α : Type} (ps : List (String × α)) (m : List (String × α)) (k : String) (v : α)
    (hk : k ∉ ps.map Prod.fst) (hp : keyPresent m k) (ha : keyAll m k v) :
    keyPresent (setFold ps m) k ∧ keyAll (setFold ps m) k v := by
  induction ps generalizing m with
  | nil => exact ⟨hp, ha⟩
  | cons q t ih =>
    rw [setFold_cons]
    have hne : k ≠ q.1 := by
      intro he
      exact hk (by rw [List.map_cons, he]; exact List.mem_cons_self _ _)
    have hk' : k ∉ t.map Prod.fst := fun hmem => hk (by rw [List.map_cons]; exact List.mem_cons_of_mem _ hmem)
    exact ih _ hk' (mapSet_preserve_present m k q.1 q.2 hne hp) (mapSet_preserve_keyAll m k v q.1 q.2 hne ha)

theorem setFold_final {α : Type} (ps : List (String × α)) (m : List (String × α))
    (hnd : (ps.map Prod.fst).Nodup) :
    ∀ q ∈ ps, keyPresent (setFold ps m) q.1 ∧ keyAll (setFold ps m) q.1 q.2 := by
  induction ps generalizing m with
  | nil => intro q hq; cases hq
  | cons q0 t ih =>
    intro q hq
    rw [setFold_cons]
    rw [List.map_cons, List.nodup_cons] at hnd
    rcases List.mem_cons.mp hq with rfl | hq'
    · exact setFold_preserve t _ q.1 q.2 hnd.1 (mapSet_present _ _ _) (mapSet_keyAll _ _ _)
    · exact ih _ hnd.2 q hq'

theorem mapSet_id {α : Type} (m : List (String × α)) (k : String) (v : α)
    (hp : keyPresent m k) (ha : keyAll m k v) : mapSet m k v = m := by
  unfold mapSet
  have hany : m.any (fun p => p.1 == k) = true := by
    obtain ⟨q, hq, hq1⟩ := hp
    exact List.any_eq_true.mpr ⟨q, hq, beq_iff_eq.mpr hq1⟩
  rw [if_pos hany]
  have hid : ∀ q ∈ m, (if q.1 == k then (k, v) else q) = q := by
    intro q hq
    by_cases hb : (q.1 == k)
    · rw [if_pos hb]
      exact (ha q hq (beq_iff_eq.mp hb)).symm
    · rw [if_neg hb]
  calc m.map (fun q => if q.1 == k then (k, v) else q) = m.map id := List.map_congr_left hid
    _ = m := List.map_id m

theorem setFold_id {α : Type} (ps : List (String × α)) (M : List (String × α))
    (h : ∀ q ∈ ps, keyPresent M q.1 ∧ keyAll M q.1 q.2) : setFold ps M = M := by
  induction ps with
  | nil => rfl
  | cons q t ih =>
    rw [setFold_cons]
    have hq := h q (List.mem_cons_self _ _)
    rw [mapSet_id M q.1 q.2 hq.1 hq.2]
    exact ih (fun q' hq' => h q' (List.mem_cons_of_mem _ hq'))

theorem setFold_idem {α : Type} (ps : List (String × α)) (m : List (String × α))
    (hnd : (ps.map Prod.fst).Nodup) : setFold ps (setFold ps m) = setFold ps m :=
  setFold_id ps _ (setFold_final ps m hnd)

theorem mapGet_eq {α : Type} (M : List (String × α)) (k : String) (v : α)
    (hp : keyPresent M k) (ha : keyAll M k v) : mapGet M k = some v := by
  induction M with
  | nil => obtain ⟨q, hq, _⟩ := hp; cases hq
  | cons q t ih =>
    unfold mapGet
    rw [List.find?_cons]
    by_cases hb : (q.1 == k)
    · simp only [hb]
      have hqv := ha q (List.mem_cons_self _ _) (beq_iff_eq.mp hb)
      rw [hqv]
      rfl
    · have hp' : keyPresent t k := by
        obtain ⟨q', hq', hq1⟩ := hp
        rcases List.mem_cons.mp hq' with rfl | hin
        · exact absurd (beq_iff_eq.mpr hq1) hb
        · exact ⟨q', hin, hq1⟩
      simp only [Bool.not_eq_true] at hb
      simp only [hb]
      exact ih hp' (fun q' hq' hq1 => ha q' (List.mem_cons_of_mem _ hq') hq1)

/- ## scan as a fold over key-value pairs -/

theorem scan_eq (fsys : FS) (a : ImpactAnalyzer) :
    scan fsys a =
      ({ a with files := getAllJsFiles fsys a.projectRoot,
                entityMap := setFold (discoveredPairs fsys a.projectRoot) a.entityMap },
       { fileCount := (getAllJsFiles fsys a.projectRoot).length,
         entityMap := setFold (discoveredPairs fsys a.projectRoot) a.entityMap }) := by
  have hstep : ∀ (m : List (String × List Entity)) (fp : String),
      (match (getFile fsys fp).bind discoverEntities with
       | some es => mapSet m (getModuleName fp a.projectRoot) es
       | none => mapSet m (getModuleName fp a.projectRoot) []) =
      mapSet m (getModuleName fp a.projectRoot) (entitiesOrEmpty fsys fp) := by
    intro m fp
    unfold entitiesOrEmpty
    cases h : (getFile fsys fp).bind discoverEntities <;> simp [h]
  unfold scan setFold discoveredPairs
  rw [List.foldl_map]
  simp only [hstep]

theorem discovered_under_root (fsys : FS) (root : String)
    (hUnder : ∀ f ∈ fsys.files, ∃ rest, f.path = root ++ "/" ++ rest) :
    ∀ p ∈ getAllJsFiles fsys root, ∃ rest, p = root ++ "/" ++ rest := by
  intro p hp
  unfold getAllJsFiles at hp
  obtain ⟨f, hf, hfp⟩ := List.mem_map.mp hp
  subst hfp
  exact hUnder f (List.mem_filter.mp hf).1

theorem discovered_nodup (fsys : FS) (root : String)
    (hN : (fsys.files.map (fun f => f.path)).Nodup) :
    (getAllJsFiles fsys root).Nodup := by
  unfold getAllJsFiles
  exact hN.sublist ((List.filter_sublist _).map _)

theorem moduleNames_nodup (fsys : FS) (root : String)
    (hN : (fsys.files.map (fun f => f.path)).Nodup)
    (hUnder : ∀ f ∈ fsys.files, ∃ rest, f.path = root ++ "/" ++ rest) :
    ((discoveredPairs fsys root).map Prod.fst).Nodup := by
  unfold discoveredPairs
  rw [List.map_map]
  apply List.Nodup.map_on ?_ (discovered_nodup fsys root hN)
  intro x hx y hy hxy
  obtain ⟨rx, hrx⟩ := discovered_under_root fsys root hUnder x hx
  obtain ⟨ry, hry⟩ := discovered_under_root fsys root hUnder y hy
  subst hrx
  subst hry
  have hxy' : getModuleName (root ++ "/" ++ rx) root = getModuleName (root ++ "/" ++ ry) root := hxy
  rw [getModuleName_append, getModuleName_append] at hxy'
  rw [hxy']

/- ## C8 -/

/-- C8: on an unchanged filesystem (well-formed: distinct file paths, all
lying under the project root), a second scan() reproduces the first one
exactly — same file list, same entity map with the same keys in the same
insertion order and the same entity records. -/
theorem c8_scan_idempotent (fsys : FS) (a : ImpactAnalyzer)
    (hN : (fsys.files.map (fun f => f.path)).Nodup)
    (hUnder : ∀ f ∈ fsys.files, ∃ rest, f.path = a.projectRoot ++ "/" ++ rest) :
    scan fsys (scan fsys a).1 = scan fsys a := by
  have hnd := moduleNames_nodup fsys a.projectRoot hN hUnder
  rw [scan_eq fsys a]
  rw [scan_eq fsys _]
  simp only []
  rw [setFold_idem _ _ hnd]

/-- Witness for C8 at the two-file scenario. -/
theorem c8_scan_idempotent_witness :
    scan fsW (scan fsW (mkImpactAnalyzer "/p")).1 = scan fsW (mkImpactAnalyzer "/p") :=
  c8_scan_idempotent fsW (mkImpactAnalyzer "/p") (by decide) (by
    intro f hf
    have hf' : f = fA ∨ f = fB := by simpa [fsW] using hf
    rcases hf' with rfl | rfl
    · exact ⟨"a.js", by decide⟩
    · exact ⟨"b.js", by decide⟩)

/- ## C9 -/

theorem find?_path_eq_some (l : List FileModel) (f : FileModel)
    (hN : (l.map (fun g => g.path)).Nodup) (hf : f ∈ l) :
    l.find? (fun g => g.path == f.path) = some f := by
  induction l with
  | nil => cases hf
  | cons g t ih =>
    rw [List.map_cons, List.nodup_cons] at hN
    rw [List.find?_cons]
    rcases List.mem_cons.mp hf with rfl | hin
    · simp
    · have hne : (g.path == f.path) = false := by
        rw [beq_eq_false_iff_ne]
        intro he
        exact hN.1 (he ▸ List.mem_map_of_mem (fun x => x.path) hin)
      rw [hne]
      exact ih hN.2 hin

theorem getFile_eq_some_of_mem (fsys : FS) (f : FileModel)
    (hN : (fsys.files.map (fun g => g.path)).Nodup) (hf : f ∈ fsys.files) :
    getFile fsys f.path = some f :=
  find?_path_eq_some fsys.files f hN hf

/-- C9: a parse failure on one file is non-fatal everywhere: scan records
an empty entity list under that file's module name while every discovered
module still receives an entry, and findReferences lets the unparseable
file contribute zero references while tracing the files around it
unchanged. -/
theorem c9_parse_failure_nonfatal (fsys : FS) (a : ImpactAnalyzer) (entityName definedIn : String)
    (xs ys : List String) (f : FileModel)
    (hN : (fsys.files.map (fun g => g.path)).Nodup)
    (hUnder : ∀ g ∈ fsys.files, ∃ rest, g.path = a.projectRoot ++ "/" ++ rest)
    (hf : f ∈ fsys.files)
    (hdisc : f.path ∈ getAllJsFiles fsys a.projectRoot)
    (hbad : f.ast = none) :
    mapGet ((scan fsys a).2.entityMap) (getModuleName f.path a.projectRoot) = some [] ∧
    (∀ p ∈ getAllJsFiles fsys a.projectRoot,
      keyPresent ((scan fsys a).2.entityMap) (getModuleName p a.projectRoot)) ∧
    fileReferences fsys entityName definedIn a.projectRoot f = [] ∧
    findReferences fsys entityName definedIn (xs ++ f.path :: ys) a.projectRoot
      = findReferences fsys entityName definedIn xs a.projectRoot
        ++ findReferences fsys entityName definedIn ys a.projectRoot := by
  have hGetFile : getFile fsys f.path = some f := getFile_eq_some_of_mem fsys f hN hf
  have hEnts : entitiesOrEmpty fsys f.path = [] := by
    simp [entitiesOrEmpty, hGetFile, discoverEntities, hbad]
  have hnd := moduleNames_nodup fsys a.projectRoot hN hUnder
  have hem : (scan fsys a).2.entityMap = setFold (discoveredPairs fsys a.projectRoot) a.entityMap := by
    rw [scan_eq]
  have hpair : (getModuleName f.path a.projectRoot, ([] : List Entity)) ∈ discoveredPairs fsys a.projectRoot := by
    unfold discoveredPairs
    refine List.mem_map.mpr ⟨f.path, hdisc, ?_⟩
    rw [hEnts]
  have hfileRefs : fileReferences fsys entityName definedIn a.projectRoot f = [] := by
    unfold fileReferences
    rw [hbad]
  refine ⟨?_, ?_, hfileRefs, ?_⟩
  · rw [hem]
    have hfin := setFold_final (discoveredPairs fsys a.projectRoot) a.entityMap hnd _ hpair
    exact mapGet_eq _ _ _ hfin.1 hfin.2
  · intro p hp
    rw [hem]
    have hpairp : (getModuleName p a.projectRoot, entitiesOrEmpty fsys p) ∈ discoveredPairs fsys a.projectRoot := by
      unfold discoveredPairs
      exact List.mem_map.mpr ⟨p, hp, rfl⟩
    exact (setFold_final (discoveredPairs fsys a.projectRoot) a.entityMap hnd _ hpairp).1
  · unfold findReferences
    rw [List.flatMap_append, List.flatMap_cons, hGetFile]
    simp only [hfileRefs, List.nil_append]

/-- Witness for C9 at a filesystem whose bad.js fails to parse. -/
theorem c9_parse_failure_nonfatal_witness :
    mapGet ((scan fsC9 (mkImpactAnalyzer "/p")).2.entityMap) "bad.js" = some [] ∧
    fileReferences fsC9 "foo" "/p/a.js" "/p" fBad = [] ∧
    findReferences fsC9 "foo" "/p/a.js" ["/p/a.js", "/p/bad.js"] "/p"
      = findReferences fsC9 "foo" "/p/a.js" ["/p/a.js"] "/p"
        ++ findReferences fsC9 "foo" "/p/a.js" [] "/p" := by
  have h := c9_parse_failure_nonfatal fsC9 (mkImpactAnalyzer "/p") "foo" "/p/a.js"
    ["/p/a.js"] [] fBad (by decide)
    (by
      intro g hg
      have hg' : g = fA ∨ g = fBad := by simpa [fsC9, fBad] using hg
      rcases hg' with rfl | rfl
      · exact ⟨"a.js", by decide⟩
      · exact ⟨"bad.js", by decide⟩)
    (by decide) (by decide) (by decide)
  exact ⟨h.1, h.2.2.1, h.2.2.2⟩
